import Mathlib

/-!
# Aurora-Pay ledger engine: shallow embedding and verification

This file embeds the ledger/authentication core of the repository
(`src/lib/storage.ts`) in Lean 4 and proves the specification's claims
about it.

Modelling conventions:
* JavaScript numbers are modelled as rationals (`ℚ`).  `Math.round`
  is modelled as round-half-up (`⌊x + 1/2⌋`), which is what JS
  `Math.round` computes; `Number.prototype.toFixed(2)` followed by
  unary `+` is modelled as rounding to two decimal places with the
  same tie rule (the spec's §4.3 declares the behaviour tie-insensitive).
* The persisted state (AsyncStorage + SecureStore) is a `Store`
  structure: a user registry list, an optional current-user id, an
  association list of per-user transaction logs, and an association
  list of per-user secrets.
* Nondeterministic inputs of the code (`uuidv4()`, `new Date()`)
  become explicit arguments (`newId`, `now`); timestamps are ISO
  strings compared lexicographically, exactly as the code compares
  `createdAt` fields with `<`.
* Each fallible operation returns `Except Err α × Store`: the `Store`
  component is the persisted state when the operation finished
  (equal to the input state when the code throws before any write,
  which is the case for every throw in `storage.ts`).
-/

/-- Transaction type, from the union type in `storage.ts`. -/
inductive TxType where
  | send
  | receive
  | topup
  | refund
deriving DecidableEq

/-- Transaction status, from the union type in `storage.ts`. -/
inductive TxStatus where
  | completed
  | pending
  | failed
deriving DecidableEq

/-- The `User` record of `storage.ts`. -/
structure User where
  id : String
  name : String
  identifier : String
  balance : ℚ
  createdAt : String
deriving DecidableEq

/-- The `Transaction` record of `storage.ts`. -/
structure Transaction where
  id : String
  userId : String
  type : TxType
  counterparty : Option String
  amount : ℚ
  fee : ℚ
  total : ℚ
  note : Option String
  status : TxStatus
  createdAt : String
deriving DecidableEq

/-- Typed errors thrown by the ledger engine (`throw new Error(...)` sites
in `storage.ts`, named as in the spec's error taxonomy, §7). -/
inductive Err where
  | duplicateIdentifier
  | userNotFound
  | invalidCredentials
  | noActiveSession
deriving DecidableEq

/-- The persisted state: AsyncStorage's `DEMO_USERS_V1` list, the
`DEMO_CURRENT_USER_ID` scalar, the per-user `DEMO_TXS_USER_<id>` lists
(as an association list keyed by user id), and SecureStore's
`USER_SECRET_<id>` strings (association list keyed by user id). -/
structure Store where
  users : List User
  currentUserId : Option String
  txs : List (String × List Transaction)
  secrets : List (String × String)
deriving DecidableEq

/-- Write a value under a key in an association list, replacing the first
existing binding or appending a fresh one (models `AsyncStorage.setItem`
on a keyed collection). -/
def setAssoc {α : Type} (k : String) (v : α) : List (String × α) → List (String × α)
  | [] => [(k, v)]
  | (k₁, v₁) :: rest => if k₁ = k then (k, v) :: rest else (k₁, v₁) :: setAssoc k v rest

/-- Look up a key in an association list (models `AsyncStorage.getItem`). -/
def getAssoc {α : Type} (k : String) : List (String × α) → Option α
  | [] => none
  | (k₁, v₁) :: rest => if k₁ = k then some v₁ else getAssoc k rest

/-- JS `Math.round`: round half up (toward +∞). -/
def jsRound (x : ℚ) : ℤ := ⌊x + 1 / 2⌋

/-- Rounding to two decimal places, used both for the default-fee
computation `Math.round(amount * 0.015 * 100) / 100` and for the
balance update `+(...).toFixed(2)` in `storage.ts`. -/
def round2 (x : ℚ) : ℚ := (jsRound (x * 100) : ℚ) / 100

/-- Function `signupUser` from `storage.ts`.  Fresh user id `newId` and timestamp
`now` are passed explicitly (the code calls `uuidv4()` and
`new Date().toISOString()`). -/
def signupUser (s : Store) (name identifier password newId now : String) :
    Except Err User × Store :=
  if (s.users.find? (fun u => u.identifier = identifier)).isSome then
    (Except.error Err.duplicateIdentifier, s)
  else
    let user : User := ⟨newId, name, identifier, 0, now⟩
    (Except.ok user,
      { users := s.users ++ [user]
        currentUserId := some newId
        txs := setAssoc newId [] s.txs
        secrets := setAssoc newId password s.secrets })

/-- Function `loginUser` from `storage.ts`.  Note the code's credential check is
`if (!secret || secret !== password)`: a stored secret that is the empty
string is falsy in JS, so it is rejected even when it equals the
supplied password. -/
def loginUser (s : Store) (identifier password : String) :
    Except Err User × Store :=
  match s.users.find? (fun u => u.identifier = identifier) with
  | none => (Except.error Err.userNotFound, s)
  | some user =>
    match getAssoc user.id s.secrets with
    | none => (Except.error Err.invalidCredentials, s)
    | some secret =>
      if secret = "" ∨ secret ≠ password then
        (Except.error Err.invalidCredentials, s)
      else
        (Except.ok user, { s with currentUserId := some user.id })

/-- Function `logout` from `storage.ts`. -/
def logout (s : Store) : Store := { s with currentUserId := none }

/-- Function `getCurrentUser` from `storage.ts`.  The code tests `if (!id)`, so an
empty-string session id is also treated as no session; a dangling id
yields `null` via `?? null`. -/
def getCurrentUser (s : Store) : Option User :=
  match s.currentUserId with
  | none => none
  | some id => if id = "" then none else s.users.find? (fun u => u.id = id)

/-- The relation behind the sort comparator in `getTransactionsForUser`:
the comparator `(a, b) => (a.createdAt < b.createdAt ? 1 : -1)` places
`a` no later than `b` exactly when `¬ (a.createdAt < b.createdAt)`,
i.e. when `b.createdAt ≤ a.createdAt` (newest first). -/
def txDesc (a b : Transaction) : Prop := b.createdAt ≤ a.createdAt

instance : DecidableRel txDesc := fun a b =>
  inferInstanceAs (Decidable (b.createdAt ≤ a.createdAt))

instance : IsTotal Transaction txDesc :=
  ⟨fun a b => (le_total b.createdAt a.createdAt).imp id id⟩

instance : IsTrans Transaction txDesc :=
  ⟨fun _ _ _ h₁ h₂ => le_trans h₂ h₁⟩

/-- Function `getTransactionsForUser` from `storage.ts`: read the user's log and
sort it newest-first with the comparator above (modelled as an insertion
sort, which agrees with any correct sort whenever the timestamps are
pairwise distinct). -/
def getTransactionsForUser (s : Store) (userId : String) : List Transaction :=
  List.insertionSort txDesc ((getAssoc userId s.txs).getD [])

/-- The parameter object of `createTransactionForCurrentUser`. -/
structure TxParams where
  type : TxType
  counterparty : Option String
  amount : ℚ
  fee : Option ℚ
  note : Option String
deriving DecidableEq

/-- Replace the balance of the first user whose id matches (models
`users.findIndex` followed by replacing `users[idx]`; when no user
matches, the registry is left unchanged, as in the code's `idx >= 0`
guard). -/
def setBalanceFirst (uid : String) (b : ℚ) : List User → List User
  | [] => []
  | u :: rest =>
    if u.id = uid then { u with balance := b } :: rest
    else u :: setBalanceFirst uid b rest

/-- The `fee` let-binding of `createTransactionForCurrentUser`:
`params.fee ?? Math.round(params.amount * 0.015 * 100) / 100` capped
below by `10`. -/
def feeOf (p : TxParams) : ℚ :=
  p.fee.getD (max 10 (round2 (p.amount * (15 / 1000))))

/-- The `total` let-binding of `createTransactionForCurrentUser`:
`amount + fee` for `send`, `amount - fee` otherwise. -/
def totalOf (p : TxParams) : ℚ :=
  if p.type = TxType.send then p.amount + feeOf p else p.amount - feeOf p

/-- The `newBalance` computation of `createTransactionForCurrentUser`:
`+(...).toFixed(2)` applied to `balance - total` for `send` and to
`balance + amount - fee` for the credit types. -/
def newBalanceOf (old : ℚ) (p : TxParams) : ℚ :=
  if p.type = TxType.send then round2 (old - totalOf p)
  else round2 (old + p.amount - feeOf p)

/-- The transaction record built by `createTransactionForCurrentUser`. -/
def mkTx (uid : String) (p : TxParams) (newId now : String) : Transaction :=
  ⟨newId, uid, p.type, p.counterparty, p.amount, feeOf p, totalOf p, p.note,
    TxStatus.completed, now⟩

/-- Function `createTransactionForCurrentUser` from `storage.ts`.  The fresh
transaction id `newId` and timestamp `now` are explicit arguments. -/
def createTransactionForCurrentUser (s : Store) (p : TxParams)
    (newId now : String) : Except Err Transaction × Store :=
  match getCurrentUser s with
  | none => (Except.error Err.noActiveSession, s)
  | some user =>
    let tx := mkTx user.id p newId now
    let oldTxs := (getAssoc user.id s.txs).getD []
    (Except.ok tx,
      { s with
          txs := setAssoc user.id (tx :: oldTxs) s.txs
          users := setBalanceFirst user.id (newBalanceOf user.balance p) s.users })

/-- Function `getBalanceForCurrentUser` from `storage.ts`: `0` when there is no
current user, otherwise the persisted `balance` field. -/
def getBalanceForCurrentUser (s : Store) : ℚ :=
  match getCurrentUser s with
  | none => 0
  | some user => user.balance

/-- The net effect of a transaction on its owner's balance, as the spec
defines it (§4.3 / §8): minus `total` for `send`, `amount - fee` for the
credit types. -/
def netEffect (t : Transaction) : ℚ :=
  if t.type = TxType.send then -t.total else t.amount - t.fee

/-- A request to `createTransactionForCurrentUser`: the parameters plus
the fresh id and timestamp the run will use. -/
structure TxReq where
  params : TxParams
  newId : String
  now : String

/-- Run a sequence of `createTransactionForCurrentUser` calls; `some`
exactly when every call succeeds, returning the created transactions in
call order together with the final store. -/
def runAll (s : Store) : List TxReq → Option (List Transaction × Store)
  | [] => some ([], s)
  | r :: rs =>
    match createTransactionForCurrentUser s r.params r.newId r.now with
    | (Except.ok tx, s₁) =>
      (runAll s₁ rs).map (fun p => (tx :: p.1, p.2))
    | (Except.error _, _) => none

/-- A rational is a two-decimal currency value: an integer number of
hundredths. -/
def Money2 (x : ℚ) : Prop := ∃ n : ℤ, x = (n : ℚ) / 100

/-- A store as produced by a fresh signup of user `u1`: one registered
user with balance `0`, an active session for them, an empty transaction
log and a stored secret. -/
def adaStore : Store :=
  ⟨[⟨"u1", "Ada", "ada@x.com", 0, "T0"⟩], some "u1", [("u1", [])],
    [("u1", "secret1")]⟩

/-- Params for a `send` of `0.001` currency units with an explicit fee of `0`:
a legitimate input (non-negative decimal amount) on which the persisted
balance is rounded. -/
def tinySend : TxParams :=
  ⟨TxType.send, some "Bob", 1 / 1000, some 0, none⟩

/-- A store whose user `u1` has the empty string as stored secret
(produced by `signupUser` with `password = ""`). -/
def emptySecretStore : Store :=
  ⟨[⟨"u1", "Ada", "ada@x.com", 0, "T0"⟩], none, [("u1", [])], [("u1", "")]⟩

/-- A store whose session pointer is set to an id that no registered
user carries. -/
def danglingStore : Store := ⟨[], some "u1", [], []⟩

/-- Two transactions of user `u1` with strictly increasing timestamps,
stored oldest-first. -/
def twoTxs : List Transaction :=
  [⟨"t1", "u1", TxType.topup, none, 100, 10, 90, none, TxStatus.completed, "2024-01-01T00:00:00.000Z"⟩,
   ⟨"t2", "u1", TxType.send, some "Bob", 50, 5, 55, none, TxStatus.completed, "2024-01-02T00:00:00.000Z"⟩]

/-- Store `adaStore` with the two transactions of `twoTxs` in its log. -/
def adaStoreTxs : Store :=
  ⟨[⟨"u1", "Ada", "ada@x.com", 0, "T0"⟩], some "u1", [("u1", twoTxs)],
    [("u1", "secret1")]⟩

example : round2 (1234 / 1000 : ℚ) = 123 / 100 := by
  norm_num [round2, jsRound]
example : round2 (-(1 / 1000 : ℚ)) = 0 := by
  norm_num [round2, jsRound]
example : max (10 : ℚ) (round2 ((100 : ℚ) * (15 / 1000))) = 10 := by
  norm_num [round2, jsRound]

/-! ## Arithmetic helper lemmas -/

theorem money2_intCast (n : ℤ) : Money2 (n : ℚ) :=
  ⟨n * 100, by push_cast; field_simp⟩

theorem money2_zero : Money2 0 := ⟨0, by norm_num⟩

theorem money2_add {a b : ℚ} (ha : Money2 a) (hb : Money2 b) :
    Money2 (a + b) := by
  obtain ⟨m, rfl⟩ := ha
  obtain ⟨n, rfl⟩ := hb
  exact ⟨m + n, by push_cast; ring⟩

theorem money2_neg {a : ℚ} (ha : Money2 a) : Money2 (-a) := by
  obtain ⟨m, rfl⟩ := ha
  exact ⟨-m, by push_cast; ring⟩

theorem money2_sub {a b : ℚ} (ha : Money2 a) (hb : Money2 b) :
    Money2 (a - b) := by
  rw [sub_eq_add_neg]
  exact money2_add ha (money2_neg hb)

theorem money2_max {a b : ℚ} (ha : Money2 a) (hb : Money2 b) :
    Money2 (max a b) := by
  rcases max_choice a b with h | h <;> rw [h]
  · exact ha
  · exact hb

theorem money2_round2 (x : ℚ) : Money2 (round2 x) := ⟨jsRound (x * 100), rfl⟩

/-- Rounding to two decimals is the identity on two-decimal values. -/
theorem round2_eq_self {x : ℚ} (h : Money2 x) : round2 x = x := by
  obtain ⟨n, rfl⟩ := h
  have h100 : ((n : ℚ) / 100) * 100 = (n : ℚ) := by field_simp
  rw [round2, jsRound, h100, Int.floor_int_add]
  norm_num

/-- The computed fee is a two-decimal value whenever the supplied fee
(if any) is; in particular the default fee always is. -/
theorem money2_feeOf {p : TxParams} (hf : ∀ f, p.fee = some f → Money2 f) :
    Money2 (feeOf p) := by
  unfold feeOf
  match hp : p.fee with
  | some f => simpa using hf f hp
  | none =>
    simpa using money2_max (money2_intCast 10) (money2_round2 _)

theorem money2_newBalanceOf (b : ℚ) (p : TxParams) :
    Money2 (newBalanceOf b p) := by
  unfold newBalanceOf
  split <;> exact money2_round2 _

/-- On two-decimal inputs, the rounded balance update equals the old
balance plus the created transaction's net effect. -/
theorem newBalanceOf_eq_netEffect {b : ℚ} (hb : Money2 b) {p : TxParams}
    (ha : Money2 p.amount) (hf : ∀ f, p.fee = some f → Money2 f)
    (uid newId now : String) :
    newBalanceOf b p = b + netEffect (mkTx uid p newId now) := by
  have hfee : Money2 (feeOf p) := money2_feeOf hf
  by_cases ht : p.type = TxType.send
  · have : b - totalOf p = b + -(totalOf p) := by ring
    rw [newBalanceOf, if_pos ht, this,
      round2_eq_self (money2_add hb (money2_neg ?_))]
    · simp [netEffect, mkTx, ht]
    · rw [totalOf, if_pos ht]
      exact money2_add ha hfee
  · have : b + p.amount - feeOf p = b + (p.amount - feeOf p) := by ring
    rw [newBalanceOf, if_neg ht, this,
      round2_eq_self (money2_add hb (money2_sub ha hfee))]
    simp [netEffect, mkTx, ht]

/-! ## Store helper lemmas -/

/-- Updating the balance of the first user with a given id updates what
a subsequent first-match lookup returns, and nothing else about that
lookup. -/
theorem find?_setBalanceFirst {l : List User} {uid : String} {u : User}
    (b : ℚ) (h : l.find? (fun x => x.id = uid) = some u) :
    (setBalanceFirst uid b l).find? (fun x => x.id = uid) =
      some { u with balance := b } := by
  induction l with
  | nil => simp at h
  | cons v vs ih =>
    rw [setBalanceFirst]
    by_cases hv : v.id = uid
    · rw [List.find?_cons_of_pos _ (by simp [hv])] at h
      rw [if_pos hv, List.find?_cons_of_pos _ (by simp [hv])]
      cases h
      rfl
    · rw [List.find?_cons_of_neg _ (by simp [hv])] at h
      rw [if_neg hv, List.find?_cons_of_neg _ (by simp [hv])]
      exact ih h

/-- Equation for `getCurrentUser` written with `Option.bind`, convenient for
rewriting. -/
theorem getCurrentUser_eq_bind (s : Store) :
    getCurrentUser s = s.currentUserId.bind
      (fun id => if id = "" then none
        else s.users.find? (fun x => x.id = id)) := by
  obtain ⟨us, cur, txl, secs⟩ := s
  cases cur <;> rfl

/-- Unfolding of a successful `getCurrentUser`. -/
theorem getCurrentUser_elim {s : Store} {u : User}
    (h : getCurrentUser s = some u) :
    s.currentUserId = some u.id ∧ u.id ≠ "" ∧
      s.users.find? (fun x => x.id = u.id) = some u := by
  rw [getCurrentUser_eq_bind] at h
  match hc : s.currentUserId with
  | none => rw [hc] at h; cases h
  | some id =>
    rw [hc, Option.some_bind] at h
    by_cases hid : id = ""
    · rw [if_pos hid] at h; cases h
    · rw [if_neg hid] at h
      have hu : u.id = id := by
        have := List.find?_some h
        simpa using this
      subst hu
      exact ⟨rfl, hid, h⟩

/-- Introduction rule for a successful `getCurrentUser`. -/
theorem getCurrentUser_intro {s : Store} {uid : String} {u : User}
    (hc : s.currentUserId = some uid) (hne : uid ≠ "")
    (hf : s.users.find? (fun x => x.id = uid) = some u) :
    getCurrentUser s = some u := by
  rw [getCurrentUser_eq_bind, hc, Option.some_bind, if_neg hne, hf]

/-- With an active session, `createTransactionForCurrentUser` succeeds
and its result is the built transaction together with the store holding
the prepended log and the updated balance. -/
theorem createTx_of_currentUser {s : Store} {u : User}
    (h : getCurrentUser s = some u) (p : TxParams) (newId now : String) :
    createTransactionForCurrentUser s p newId now =
      (Except.ok (mkTx u.id p newId now),
        { s with
            txs := setAssoc u.id
              (mkTx u.id p newId now :: (getAssoc u.id s.txs).getD []) s.txs
            users := setBalanceFirst u.id (newBalanceOf u.balance p) s.users }) := by
  unfold createTransactionForCurrentUser
  rw [h]

/-- Without an active user, `createTransactionForCurrentUser` throws and
leaves the store untouched. -/
theorem createTx_of_noUser {s : Store}
    (h : getCurrentUser s = none) (p : TxParams) (newId now : String) :
    createTransactionForCurrentUser s p newId now =
      (Except.error Err.noActiveSession, s) := by
  unfold createTransactionForCurrentUser
  rw [h]

/-- Running a list of transaction requests from a state with an active
session whose user has a two-decimal balance: the session is preserved
and the final balance is the initial balance plus the sum of the created
transactions' net effects. -/
theorem runAll_balance {reqs : List TxReq} {s : Store} {u : User}
    {txs : List Transaction} {s₁ : Store}
    (hcur : getCurrentUser s = some u) (hb : Money2 u.balance)
    (hgood : ∀ r ∈ reqs,
      Money2 r.params.amount ∧ ∀ f, r.params.fee = some f → Money2 f)
    (hrun : runAll s reqs = some (txs, s₁)) :
    ∃ u₁, getCurrentUser s₁ = some u₁ ∧ u₁.id = u.id ∧ Money2 u₁.balance ∧
      u₁.balance = u.balance + (txs.map netEffect).sum := by
  induction reqs generalizing s u txs s₁ with
  | nil =>
    rw [runAll] at hrun
    cases hrun
    exact ⟨u, hcur, rfl, hb, by simp⟩
  | cons r rs ih =>
    rw [runAll, createTx_of_currentUser hcur r.params r.newId r.now] at hrun
    obtain ⟨⟨txs', s'⟩, hrun', heq⟩ := Option.map_eq_some'.mp hrun
    cases heq
    obtain ⟨hc, hne, hf⟩ := getCurrentUser_elim hcur
    have hcur' : getCurrentUser
        { s with
            txs := setAssoc u.id
              (mkTx u.id r.params r.newId r.now :: (getAssoc u.id s.txs).getD []) s.txs
            users := setBalanceFirst u.id (newBalanceOf u.balance r.params) s.users } =
        some { u with balance := newBalanceOf u.balance r.params } :=
      getCurrentUser_intro hc hne (find?_setBalanceFirst _ hf)
    obtain ⟨hgr, hgrs⟩ := List.forall_mem_cons.mp hgood
    obtain ⟨u₁, hu₁, hid, hm, hbal⟩ :=
      ih hcur' (money2_newBalanceOf _ _) hgrs hrun'
    refine ⟨u₁, hu₁, hid, hm, ?_⟩
    rw [hbal]
    simp only [List.map_cons, List.sum_cons]
    rw [newBalanceOf_eq_netEffect hb hgr.1 hgr.2 u.id r.newId r.now]
    ring

/-! ## Claim theorems -/

/-- C7: when the session pointer is unset, `createTransactionForCurrentUser`
fails with `NoActiveSession` and the persisted state (user registry,
transaction logs, session pointer) is returned unchanged. -/
theorem create_tx_no_session_fails (s : Store) (p : TxParams)
    (newId now : String) (h : s.currentUserId = none) :
    createTransactionForCurrentUser s p newId now =
      (Except.error Err.noActiveSession, s) := by
  apply createTx_of_noUser _ p newId now
  rw [getCurrentUser_eq_bind, h]
  rfl

/-- C7 witness: the failure at a concrete empty store. -/
theorem create_tx_no_session_fails_witness :
    createTransactionForCurrentUser ⟨[], none, [], []⟩ tinySend "t1" "T1" =
      (Except.error Err.noActiveSession, ⟨[], none, [], []⟩) :=
  create_tx_no_session_fails ⟨[], none, [], []⟩ tinySend "t1" "T1" rfl

/-- C8: operation `getBalanceForCurrentUser` returns 0 (without failing — it is a
total operation) when there is no current session, and otherwise returns
exactly the persisted `balance` field of the current user. -/
theorem get_balance_spec (s : Store) :
    (s.currentUserId = none → getBalanceForCurrentUser s = 0) ∧
    (∀ u, getCurrentUser s = some u → getBalanceForCurrentUser s = u.balance) := by
  constructor
  · intro h
    have hnone : getCurrentUser s = none := by
      rw [getCurrentUser_eq_bind, h]; rfl
    rw [getBalanceForCurrentUser, hnone]
  · intro u hu
    rw [getBalanceForCurrentUser, hu]

/-- C8 witness: evaluated at a concrete sessionless store and at
`adaStore`. -/
theorem get_balance_spec_witness :
    getBalanceForCurrentUser ⟨[], none, [], []⟩ = 0 ∧
    getBalanceForCurrentUser adaStore = 0 :=
  ⟨(get_balance_spec ⟨[], none, [], []⟩).1 rfl,
   (get_balance_spec adaStore).2 ⟨"u1", "Ada", "ada@x.com", 0, "T0"⟩ rfl⟩

/-- C9 counterexample: in `danglingStore` the session pointer is set to
`"u1"` but no user with that id exists; `getCurrentUser` returns `none`
— the same normal "no user" result as an unset session — rather than
surfacing an internal-consistency error (the operation has no error
outcome at all). -/
theorem dangling_session_returns_none :
    danglingStore.currentUserId = some "u1" ∧
    danglingStore.users = [] ∧
    getCurrentUser danglingStore = none :=
  ⟨rfl, rfl, rfl⟩

/-- C9 (amended): operation `getCurrentUser` returns none when the session pointer
is unset; when the pointer is set but no user with that id is in the
registry it also returns none, silently treating the dangling pointer as
"no session" instead of surfacing an error. -/
theorem get_current_user_none_cases (s : Store) :
    (s.currentUserId = none → getCurrentUser s = none) ∧
    (∀ id, s.currentUserId = some id →
      s.users.find? (fun x => x.id = id) = none → getCurrentUser s = none) := by
  constructor
  · intro h
    rw [getCurrentUser_eq_bind, h]
    rfl
  · intro id h hf
    rw [getCurrentUser_eq_bind, h, Option.some_bind]
    by_cases hid : id = ""
    · rw [if_pos hid]
    · rw [if_neg hid, hf]

/-- C9 witness: both cases evaluated concretely (unset pointer, and the
dangling pointer of `danglingStore`). -/
theorem get_current_user_none_cases_witness :
    getCurrentUser ⟨[], none, [], []⟩ = none ∧
    getCurrentUser danglingStore = none :=
  ⟨(get_current_user_none_cases ⟨[], none, [], []⟩).1 rfl,
   (get_current_user_none_cases danglingStore).2 "u1" rfl rfl⟩

/-- C4: calling `signupUser` with an already-registered identifier (case-sensitive
exact match) fails with `DuplicateIdentifier` and leaves the whole
persisted state — registry, secret store, session pointer and all
transaction logs — unchanged; and a successful signup preserves the
invariant that no two registered users share an identifier. -/
theorem signup_duplicate_and_uniqueness (s : Store)
    (name identifier password newId now : String) :
    ((∃ u ∈ s.users, u.identifier = identifier) →
      signupUser s name identifier password newId now =
        (Except.error Err.duplicateIdentifier, s)) ∧
    (s.users.Pairwise (fun a b => a.identifier ≠ b.identifier) →
      ∀ u₁ s₁, signupUser s name identifier password newId now =
          (Except.ok u₁, s₁) →
        s₁.users.Pairwise (fun a b => a.identifier ≠ b.identifier)) := by
  constructor
  · intro h
    have hsome : (s.users.find? (fun u => u.identifier = identifier)).isSome := by
      rw [List.find?_isSome]
      obtain ⟨u, hu, hid⟩ := h
      exact ⟨u, hu, by simp [hid]⟩
    rw [signupUser, if_pos hsome]
  · intro hpw u₁ s₁ hok
    by_cases hsome : (s.users.find? (fun u => u.identifier = identifier)).isSome
    · rw [signupUser, if_pos hsome] at hok
      cases hok
    · rw [signupUser, if_neg hsome] at hok
      injection hok with h1 h2
      subst h2
      have hall : ∀ a ∈ s.users, a.identifier ≠ identifier := by
        intro a ha hid
        exact hsome (List.find?_isSome.mpr ⟨a, ha, by simp [hid]⟩)
      show (s.users ++ [(⟨newId, name, identifier, 0, now⟩ : User)]).Pairwise
        (fun a b => a.identifier ≠ b.identifier)
      rw [List.pairwise_append]
      exact ⟨hpw, List.pairwise_singleton _ _,
        fun a ha b hb => by
          simp only [List.mem_singleton] at hb
          subst hb
          exact hall a ha⟩

/-- C4 witness: duplicate signup fails on `adaStore`; a fresh signup into
the empty store keeps identifiers unique. -/
theorem signup_duplicate_and_uniqueness_witness :
    signupUser adaStore "Eve" "ada@x.com" "pw" "u2" "T3" =
      (Except.error Err.duplicateIdentifier, adaStore) ∧
    ([⟨"u1", "Ada", "ada@x.com", 0, "T0"⟩] : List User).Pairwise
      (fun a b => a.identifier ≠ b.identifier) :=
  ⟨(signup_duplicate_and_uniqueness adaStore "Eve" "ada@x.com" "pw" "u2" "T3").1
      ⟨⟨"u1", "Ada", "ada@x.com", 0, "T0"⟩, by simp [adaStore], rfl⟩,
   (signup_duplicate_and_uniqueness ⟨[], none, [], []⟩ "Ada" "ada@x.com" "secret1" "u1" "T0").2
      (List.Pairwise.nil) ⟨"u1", "Ada", "ada@x.com", 0, "T0"⟩
      ⟨[⟨"u1", "Ada", "ada@x.com", 0, "T0"⟩], some "u1", [("u1", [])], [("u1", "secret1")]⟩
      (by with_unfolding_all rfl)⟩

/-- C5 counterexample: in `emptySecretStore` the stored secret for the
user matching `"ada@x.com"` is the empty string, which is exactly equal
to the supplied password `""` — yet `loginUser` fails with
`InvalidCredentials`, because the code's check `!secret` treats the
empty string as missing. -/
theorem login_empty_secret_cex :
    getAssoc "u1" emptySecretStore.secrets = some "" ∧
    emptySecretStore.users.find? (fun x => x.identifier = "ada@x.com") =
      some ⟨"u1", "Ada", "ada@x.com", 0, "T0"⟩ ∧
    loginUser emptySecretStore "ada@x.com" "" =
      (Except.error Err.invalidCredentials, emptySecretStore) :=
  ⟨rfl, rfl, rfl⟩

/-- C5 (amended): for a login whose identifier matches a registered user,
the call fails with `InvalidCredentials` and leaves the session pointer
(indeed the whole store) unchanged whenever the stored secret is absent,
is the empty string, or differs from the supplied password; when the
stored secret is non-empty and exactly equals the password, the call
sets the session pointer to that user's id and returns that user. -/
theorem login_credential_gate (s : Store) (u : User) (identifier : String)
    (hfind : s.users.find? (fun x => x.identifier = identifier) = some u)
    (password : String) :
    (getAssoc u.id s.secrets = none →
      loginUser s identifier password =
        (Except.error Err.invalidCredentials, s)) ∧
    (∀ sec, getAssoc u.id s.secrets = some sec → sec = "" ∨ sec ≠ password →
      loginUser s identifier password =
        (Except.error Err.invalidCredentials, s)) ∧
    (∀ sec, getAssoc u.id s.secrets = some sec → sec ≠ "" → sec = password →
      loginUser s identifier password =
        (Except.ok u, { s with currentUserId := some u.id })) := by
  refine ⟨?_, ?_, ?_⟩
  · intro hsec
    simp only [loginUser, hfind, hsec]
  · intro sec hsec hbad
    simp only [loginUser, hfind, hsec]
    rw [if_pos hbad]
  · intro sec hsec hne hpw
    subst hpw
    simp only [loginUser, hfind, hsec]
    rw [if_neg (by simp [hne])]

/-- C5 witness: on `adaStore` (secret `"secret1"`), a wrong password is
rejected with the store unchanged, and the right password logs in. -/
theorem login_credential_gate_witness :
    loginUser adaStore "ada@x.com" "wrong" =
      (Except.error Err.invalidCredentials, adaStore) ∧
    loginUser adaStore "ada@x.com" "secret1" =
      (Except.ok ⟨"u1", "Ada", "ada@x.com", 0, "T0"⟩,
        { adaStore with currentUserId := some "u1" }) :=
  ⟨(login_credential_gate adaStore ⟨"u1", "Ada", "ada@x.com", 0, "T0"⟩
      "ada@x.com" rfl "wrong").2.1 "secret1" rfl (Or.inr (by decide)),
   (login_credential_gate adaStore ⟨"u1", "Ada", "ada@x.com", 0, "T0"⟩
      "ada@x.com" rfl "secret1").2.2 "secret1" rfl (by decide) rfl⟩

/-- C6: when the stored transactions of a user have pairwise distinct
`createdAt` timestamps, `getTransactionsForUser` returns exactly those
transactions (a permutation of the stored log) in strictly descending
`createdAt` order — i.e. newest first. -/
theorem newest_first_ordering {s : Store} {userId : String}
    {stored : List Transaction}
    (hst : getAssoc userId s.txs = some stored)
    (hdist : stored.Pairwise (fun a b => a.createdAt ≠ b.createdAt)) :
    List.Perm (getTransactionsForUser s userId) stored ∧
      (getTransactionsForUser s userId).Pairwise
        (fun a b => b.createdAt < a.createdAt) := by
  have hres : getTransactionsForUser s userId =
      List.insertionSort txDesc stored := by
    rw [getTransactionsForUser, hst]
    rfl
  refine ⟨hres ▸ List.perm_insertionSort txDesc stored, ?_⟩
  rw [hres]
  have hsorted : (List.insertionSort txDesc stored).Pairwise txDesc :=
    List.sorted_insertionSort txDesc stored
  have hne : (List.insertionSort txDesc stored).Pairwise
      (fun a b => a.createdAt ≠ b.createdAt) :=
    ((List.perm_insertionSort txDesc stored).pairwise_iff
      (fun {_ _} h => Ne.symm h)).mpr hdist
  exact (hsorted.and hne).imp
    (fun h => lt_of_le_of_ne h.1 (Ne.symm h.2))

/-- C6 witness: the two stored transactions of `adaStoreTxs` (created at
strictly increasing timestamps, stored oldest-first) come back newest
first. -/
theorem newest_first_ordering_witness :
    List.Perm (getTransactionsForUser adaStoreTxs "u1") twoTxs ∧
      (getTransactionsForUser adaStoreTxs "u1").Pairwise
        (fun a b => b.createdAt < a.createdAt) :=
  newest_first_ordering rfl (by decide)

/-- The balance read back after a successful
`createTransactionForCurrentUser` is exactly the rounded new balance the
operation computed. -/
theorem getBalance_after_createTx {s : Store} {u : User}
    (hcur : getCurrentUser s = some u) (p : TxParams) (newId now : String) :
    getBalanceForCurrentUser
      { s with
          txs := setAssoc u.id
            (mkTx u.id p newId now :: (getAssoc u.id s.txs).getD []) s.txs
          users := setBalanceFirst u.id (newBalanceOf u.balance p) s.users } =
      newBalanceOf u.balance p := by
  obtain ⟨hc, hne, hf⟩ := getCurrentUser_elim hcur
  have hcur1 : getCurrentUser
      { s with
          txs := setAssoc u.id
            (mkTx u.id p newId now :: (getAssoc u.id s.txs).getD []) s.txs
          users := setBalanceFirst u.id (newBalanceOf u.balance p) s.users } =
      some { u with balance := newBalanceOf u.balance p } :=
    getCurrentUser_intro hc hne (find?_setBalanceFirst _ hf)
  rw [getBalanceForCurrentUser, hcur1]

/-- The default fee of a 100-unit transaction is the minimum fee 10. -/
theorem feeOf_topup100 :
    feeOf ⟨TxType.topup, none, 100, none, none⟩ = 10 := by
  rw [feeOf]
  norm_num [round2, jsRound]

/-- C3: whenever the fee argument is not supplied the created
transaction's fee is `max(10, round(amount * 0.015, 2))`; in particular a
topup of 100 with no explicit fee gets fee 10 and (from a two-decimal
balance, which every reachable balance is) raises the balance by 90. -/
theorem default_fee_rule (s : Store) (u : User)
    (hcur : getCurrentUser s = some u) (newId now : String) :
    (∀ p : TxParams, p.fee = none →
      ∃ tx s₁, createTransactionForCurrentUser s p newId now =
          (Except.ok tx, s₁) ∧
        tx.fee = max 10 (round2 (p.amount * (15 / 1000)))) ∧
    (Money2 u.balance →
      ∃ tx s₁, createTransactionForCurrentUser s
          ⟨TxType.topup, none, 100, none, none⟩ newId now =
          (Except.ok tx, s₁) ∧
        tx.fee = 10 ∧ getBalanceForCurrentUser s₁ = u.balance + 90) := by
  constructor
  · intro p hp
    refine ⟨_, _, createTx_of_currentUser hcur p newId now, ?_⟩
    show feeOf p = max 10 (round2 (p.amount * (15 / 1000)))
    rw [feeOf, hp]
    rfl
  · intro hb
    refine ⟨_, _, createTx_of_currentUser hcur _ newId now, feeOf_topup100, ?_⟩
    rw [getBalance_after_createTx hcur _ newId now]
    show newBalanceOf u.balance ⟨TxType.topup, none, 100, none, none⟩ =
      u.balance + 90
    rw [newBalanceOf, if_neg (by decide)]
    show round2 (u.balance + 100 - feeOf ⟨TxType.topup, none, 100, none, none⟩) =
      u.balance + 90
    rw [feeOf_topup100,
      show u.balance + 100 - 10 = u.balance + 90 by ring,
      round2_eq_self (money2_add hb ⟨9000, by norm_num⟩)]

/-- C3 witness: both parts at `adaStore` — a send of 50 with defaulted
fee, and the topup of 100 raising the balance from 0 to 90. -/
theorem default_fee_rule_witness :
    (∃ tx s₁, createTransactionForCurrentUser adaStore
        ⟨TxType.send, some "Bob", 50, none, none⟩ "t1" "T1" =
        (Except.ok tx, s₁) ∧
      tx.fee = max 10 (round2 (50 * (15 / 1000)))) ∧
    (∃ tx s₁, createTransactionForCurrentUser adaStore
        ⟨TxType.topup, none, 100, none, none⟩ "t1" "T1" =
        (Except.ok tx, s₁) ∧
      tx.fee = 10 ∧ getBalanceForCurrentUser s₁ = 0 + 90) :=
  ⟨(default_fee_rule adaStore ⟨"u1", "Ada", "ada@x.com", 0, "T0"⟩ rfl
      "t1" "T1").1 ⟨TxType.send, some "Bob", 50, none, none⟩ rfl,
   (default_fee_rule adaStore ⟨"u1", "Ada", "ada@x.com", 0, "T0"⟩ rfl
      "t1" "T1").2 money2_zero⟩

/-- C2 counterexample: a legitimate send request (`amount = 0.001`,
explicit `fee = 0`) from a fresh account with balance 0.  The returned
transaction has `total = amount + fee = 0.001` as claimed, but the
persisted balance is the rounded value 0, not
`oldBalance - total = -0.001`. -/
theorem send_balance_rounding_cex :
    ∃ tx s₁, createTransactionForCurrentUser adaStore tinySend "t1" "T1" =
        (Except.ok tx, s₁) ∧
      tx.type = TxType.send ∧ tx.total = tx.amount + tx.fee ∧
      getBalanceForCurrentUser s₁ = 0 ∧
      (0 : ℚ) - tx.total = -(1 / 1000) ∧ ((0 : ℚ) ≠ -(1 / 1000)) := by
  refine ⟨_, _,
    createTx_of_currentUser (s := adaStore)
      (u := ⟨"u1", "Ada", "ada@x.com", 0, "T0"⟩)
      rfl tinySend "t1" "T1", rfl, rfl, ?_, ?_, by norm_num⟩
  · with_unfolding_all rfl
  · with_unfolding_all rfl

/-- C2 (amended): for every successful `createTransactionForCurrentUser`
call whose current user balance, amount, and (if supplied) fee are
two-decimal currency values: a `send` returns `total = amount + fee` and
persists `oldBalance - total`; the credit types return
`total = amount - fee` and persist `oldBalance + amount - fee`.  (For
inputs with more than two decimals the persisted balance is additionally
rounded to two decimals — see the counterexample.) -/
theorem tx_total_and_balance (s : Store) (u : User)
    (hcur : getCurrentUser s = some u) (p : TxParams) (newId now : String)
    (hb : Money2 u.balance) (ha : Money2 p.amount)
    (hf : ∀ f, p.fee = some f → Money2 f) :
    ∃ tx s₁, createTransactionForCurrentUser s p newId now =
        (Except.ok tx, s₁) ∧
      (p.type = TxType.send → tx.total = tx.amount + tx.fee ∧
        getBalanceForCurrentUser s₁ = u.balance - tx.total) ∧
      (p.type ≠ TxType.send → tx.total = tx.amount - tx.fee ∧
        getBalanceForCurrentUser s₁ = u.balance + tx.amount - tx.fee) := by
  refine ⟨_, _, createTx_of_currentUser hcur p newId now, ?_, ?_⟩
  · intro ht
    refine ⟨?_, ?_⟩
    · show totalOf p = p.amount + feeOf p
      rw [totalOf, if_pos ht]
    · rw [getBalance_after_createTx hcur p newId now]
      show newBalanceOf u.balance p = u.balance - totalOf p
      rw [newBalanceOf, if_pos ht, round2_eq_self (money2_sub hb
        ((show totalOf p = p.amount + feeOf p by rw [totalOf, if_pos ht]) ▸
          money2_add ha (money2_feeOf hf)))]
  · intro ht
    refine ⟨?_, ?_⟩
    · show totalOf p = p.amount - feeOf p
      rw [totalOf, if_neg ht]
    · rw [getBalance_after_createTx hcur p newId now]
      show newBalanceOf u.balance p = u.balance + p.amount - feeOf p
      rw [newBalanceOf, if_neg ht,
        show u.balance + p.amount - feeOf p = u.balance + (p.amount - feeOf p)
          by ring,
        round2_eq_self (money2_add hb (money2_sub ha (money2_feeOf hf)))]

/-- C2 witness: the spec's own scenario — send 50 with fee 5 from
balance 0 gives `total = 55` and persisted balance `0 - 55`. -/
theorem tx_total_and_balance_witness :
    ∃ tx s₁, createTransactionForCurrentUser adaStore
        ⟨TxType.send, some "Bob", 50, some 5, none⟩ "t1" "T1" =
        (Except.ok tx, s₁) ∧
      (TxType.send = TxType.send → tx.total = tx.amount + tx.fee ∧
        getBalanceForCurrentUser s₁ = 0 - tx.total) ∧
      (TxType.send ≠ TxType.send → tx.total = tx.amount - tx.fee ∧
        getBalanceForCurrentUser s₁ = 0 + tx.amount - tx.fee) :=
  tx_total_and_balance adaStore ⟨"u1", "Ada", "ada@x.com", 0, "T0"⟩ rfl
    ⟨TxType.send, some "Bob", 50, some 5, none⟩ "t1" "T1" money2_zero
    ⟨5000, by norm_num⟩ (fun f hf => by cases hf; exact ⟨500, by norm_num⟩)

/-- C10: after every successful `createTransactionForCurrentUser` call —
with no restriction on how many decimals the supplied amount or fee
carry — the balance persisted for the owning user is a two-decimal
value, because the implementation applies `toFixed(2)` to the computed
new balance for every transaction type. -/
theorem persisted_balance_two_decimals (s : Store) (p : TxParams)
    (newId now : String) (tx : Transaction) (s₁ : Store)
    (h : createTransactionForCurrentUser s p newId now =
      (Except.ok tx, s₁)) :
    ∃ u₁, s₁.users.find? (fun x => x.id = tx.userId) = some u₁ ∧
      Money2 u₁.balance := by
  match hcur : getCurrentUser s with
  | none =>
    rw [createTx_of_noUser hcur p newId now] at h
    exact absurd (congrArg Prod.fst h) (by simp)
  | some u =>
    rw [createTx_of_currentUser hcur p newId now] at h
    injection h with h1 h2
    injection h1 with h1
    subst h1
    subst h2
    obtain ⟨hc, hne, hf⟩ := getCurrentUser_elim hcur
    exact ⟨_, find?_setBalanceFirst _ hf, money2_newBalanceOf u.balance p⟩

/-- C10 witness: the rounded persisted balance after the `tinySend`
call (amount with three decimals) is still a two-decimal value. -/
theorem persisted_balance_two_decimals_witness :
    ∃ u₁, (setBalanceFirst "u1" (newBalanceOf 0 tinySend)
        adaStore.users).find?
        (fun x => x.id = (mkTx "u1" tinySend "t1" "T1").userId) = some u₁ ∧
      Money2 u₁.balance :=
  persisted_balance_two_decimals adaStore tinySend "t1" "T1"
    (mkTx "u1" tinySend "t1" "T1")
    { adaStore with
        txs := setAssoc "u1"
          (mkTx "u1" tinySend "t1" "T1" :: (getAssoc "u1" adaStore.txs).getD [])
          adaStore.txs
        users := setBalanceFirst "u1" (newBalanceOf 0 tinySend) adaStore.users }
    (createTx_of_currentUser (s := adaStore)
      (u := ⟨"u1", "Ada", "ada@x.com", 0, "T0"⟩) rfl tinySend "t1" "T1")

/-- C1 counterexample: one successful call — the legitimate `tinySend`
request (amount 0.001, fee 0) from a fresh balance-0 account.  The sum
of net effects is `-0.001`, but the persisted balance is the rounded
value 0, so the balance does not equal the plain sum of net effects. -/
theorem fold_sum_rounding_cex :
    ∃ txs s₁, runAll adaStore [⟨tinySend, "t1", "T1"⟩] = some (txs, s₁) ∧
      getBalanceForCurrentUser s₁ = 0 ∧
      (txs.map netEffect).sum = -(1 / 1000) ∧ ((0 : ℚ) ≠ -(1 / 1000)) := by
  have hrun : runAll adaStore [⟨tinySend, "t1", "T1"⟩] =
      some ([⟨"t1", "u1", TxType.send, some "Bob", 1 / 1000, 0, 1 / 1000,
              none, TxStatus.completed, "T1"⟩],
        ⟨[⟨"u1", "Ada", "ada@x.com", 0, "T0"⟩], some "u1",
         [("u1", [⟨"t1", "u1", TxType.send, some "Bob", 1 / 1000, 0, 1 / 1000,
              none, TxStatus.completed, "T1"⟩])],
         [("u1", "secret1")]⟩) := by
    with_unfolding_all rfl
  refine ⟨_, _, hrun, rfl, ?_, by norm_num⟩
  show (List.map netEffect [⟨"t1", "u1", TxType.send, some "Bob", 1 / 1000,
      0, 1 / 1000, none, TxStatus.completed, "T1"⟩]).sum = -(1 / 1000)
  simp [netEffect]

/-- C1 (amended): starting from a state whose current user has balance 0
(as right after signup), after any sequence of successful
`createTransactionForCurrentUser` calls whose amounts and supplied fees
are two-decimal currency values, the persisted balance equals the sum of
the created transactions' net effects (minus `total` for `send`;
`amount - fee` for the credit types) in completion order.  (Without the
two-decimal restriction the balance is the fold of the net effects with
rounding to two decimals after each step — see the counterexample.) -/
theorem balance_fold_invariant (s : Store) (u : User) {reqs : List TxReq}
    {txs : List Transaction} {s₁ : Store}
    (hcur : getCurrentUser s = some u) (hzero : u.balance = 0)
    (hgood : ∀ r ∈ reqs, Money2 r.params.amount ∧
      ∀ f, r.params.fee = some f → Money2 f)
    (hrun : runAll s reqs = some (txs, s₁)) :
    ∃ u₁, getCurrentUser s₁ = some u₁ ∧ u₁.id = u.id ∧
      u₁.balance = (txs.map netEffect).sum := by
  obtain ⟨u₁, h₁, h₂, -, h₄⟩ :=
    runAll_balance hcur (by rw [hzero]; exact money2_zero) hgood hrun
  exact ⟨u₁, h₁, h₂, by rw [h₄, hzero, zero_add]⟩

/-- C1 witness: two successful calls from a fresh signup — send 50 with
fee 5, then topup 100 with defaulted fee 10 — leave the persisted
balance at `-55 + 90 = 35`, the sum of the two net effects. -/
theorem balance_fold_invariant_witness :
    ∃ txs s₁, runAll adaStore
        [⟨⟨TxType.send, some "Bob", 50, some 5, none⟩, "t1", "T1"⟩,
         ⟨⟨TxType.topup, none, 100, none, none⟩, "t2", "T2"⟩] =
        some (txs, s₁) ∧
      ∃ u₁, getCurrentUser s₁ = some u₁ ∧ u₁.id = "u1" ∧
        u₁.balance = (txs.map netEffect).sum := by
  have hrun : runAll adaStore
      [⟨⟨TxType.send, some "Bob", 50, some 5, none⟩, "t1", "T1"⟩,
       ⟨⟨TxType.topup, none, 100, none, none⟩, "t2", "T2"⟩] =
      some ([⟨"t1", "u1", TxType.send, some "Bob", 50, 5, 55, none,
              TxStatus.completed, "T1"⟩,
             ⟨"t2", "u1", TxType.topup, none, 100, 10, 90, none,
              TxStatus.completed, "T2"⟩],
        ⟨[⟨"u1", "Ada", "ada@x.com", 35, "T0"⟩], some "u1",
         [("u1", [⟨"t2", "u1", TxType.topup, none, 100, 10, 90, none,
              TxStatus.completed, "T2"⟩,
            ⟨"t1", "u1", TxType.send, some "Bob", 50, 5, 55, none,
              TxStatus.completed, "T1"⟩])],
         [("u1", "secret1")]⟩) := by
    with_unfolding_all rfl
  refine ⟨_, _, hrun,
    balance_fold_invariant adaStore ⟨"u1", "Ada", "ada@x.com", 0, "T0"⟩
      rfl rfl ?_ hrun⟩
  intro r hr
  rcases List.mem_cons.mp hr with rfl | hr
  · exact ⟨⟨5000, by norm_num⟩, fun f hf => by cases hf; exact ⟨500, by norm_num⟩⟩
  rcases List.mem_cons.mp hr with rfl | hr
  · exact ⟨⟨10000, by norm_num⟩, fun f hf => by cases hf⟩
  cases hr
